import Mathlib

/-!
Shallow embedding of the fs3ds crate (a read-only 3DS cartridge filesystem)
and proofs about it.  The embedding follows `src/partition.rs`, `src/ncsd.rs`,
`src/ivfc.rs` and `src/ivfc_vfs.rs`.

Modelling conventions:
* The underlying byte source (`T : Read + Seek`) is modelled as `FileState`,
  an immutable byte list plus a cursor, with `Cursor`-like semantics:
  `seek(Start(p))` always succeeds (seeking past the end is allowed),
  `read` returns as many bytes as are available up to the requested amount,
  and `read_exact` of one byte fails exactly at end of data.
* `usize`/`u64` values are modelled as `Nat`.  The `as usize` casts of
  negative `i64` values wrap modulo `2 ^ 64` (defined behaviour in Rust),
  which is modelled with `Int.emod`.  Unchecked `usize` additions in the
  seek-target resolution are modelled with `% 2 ^ 64` (release-mode wrap;
  overflow-checked builds abort instead, which only removes behaviours).
  The `usize` subtraction `end - pointer` in the read path aborts on
  underflow in overflow-checked builds; this is modelled by the `.crash`
  result (in release builds the wrapped count makes the byte loop overrun
  the destination buffer, which also aborts once a byte is stored).
* Mutex locking always succeeds (single-threaded model); the poisoned-lock
  error paths are therefore not represented.
* Error payloads that only carry diagnostics (`io::Error` causes and the
  `&'static str` field tags) are not modelled; error constructors keep the
  fields that the code inspects.
-/

/-- Number of values of `usize`/`u64` (the code targets 64-bit platforms). -/
def USIZE : Nat := 2 ^ 64

/-- Number of values of `u32`. -/
def U32 : Nat := 2 ^ 32

/-- A random-access byte source: the data and the current cursor position.
Models the `T : Read + Seek` type parameter of the crate. -/
structure FileState where
  data : List Nat
  pos : Nat
  deriving DecidableEq, Repr

/-- `file.seek(SeekFrom::Start(p))` on the underlying source: repositions the
cursor (seeking past the end is permitted and succeeds). -/
def fileSeekTo (f : FileState) (p : Nat) : FileState :=
  { f with pos := p }

/-- `file.read(buf)` on the underlying source: returns the bytes read
(at most `n`, fewer at end of data) and the advanced state. -/
def fileRead (f : FileState) (n : Nat) : List Nat × FileState :=
  let cnt := min n (f.data.length - f.pos)
  ((f.data.drop f.pos).take cnt, { f with pos := f.pos + cnt })

/-- `file.read_exact` of a single byte: `none` models the I/O error returned
at end of data. -/
def fileReadExact1 (f : FileState) : Option (Nat × FileState) :=
  match f.data.get? f.pos with
  | some b => some (b, { f with pos := f.pos + 1 })
  | none => none

/-- `std::io::SeekFrom`. -/
inductive SeekFrom where
  | Start (nb : Nat)
  | End (nb : Int)
  | Current (nb : Int)
  deriving DecidableEq, Repr

/-- The `std::io::ErrorKind` values the crate produces. -/
inductive IoErrorKind where
  | PermissionDenied
  | InvalidInput
  | InvalidData
  | NotFound
  | UnexpectedEof
  | Other
  deriving DecidableEq, Repr

/-- Resolution of a seek target to an absolute position, as written in
`partition_seek` and `Partition::seek` (src/partition.rs):
`Start(nb) => start + nb`, `End(nb) => (end as i64 + nb) as usize`,
`Current(nb) => ((start + pointer) as i64 + nb) as usize`.
The `as usize` casts (and release-mode `+`) wrap modulo `2 ^ 64`. -/
def resolveSeekPos (start end_ pointer : Nat) : SeekFrom → Nat
  | .Start nb => (start + nb) % USIZE
  | .End nb => (((end_ : Int) + nb) % (USIZE : Int)).toNat
  | .Current nb => ((((start : Int) + pointer) + nb) % (USIZE : Int)).toNat

/-- Outcome of a partition read at the level of the helper functions:
the bytes stored into the caller's buffer, the final file state and the
final window pointer; `.ioerr` is an `Err` return from a failed
`read_exact` (after the recovery seek); `.crash` models an abort
(integer-overflow panic or out-of-bounds buffer store). -/
inductive PRead where
  | ok (bytes : List Nat) (f : FileState) (pointer : Nat)
  | ioerr (f : FileState) (pointer : Nat)
  | crash
  deriving DecidableEq, Repr

/-- The byte-at-a-time tail loop shared by `partition_read` and
`Partition::read` (their loop bodies are identical): for each of `n`
iterations, `read_exact` one byte (on failure seek back to
`start + pointer` and return the error), advance the pointer, store the
byte at buffer index `idx` (aborting when `idx` is out of bounds). -/
def readLoop (start bufLen : Nat) : Nat → Nat → FileState → Nat → PRead
  | 0, _, f, ptr => .ok [] f ptr
  | n + 1, idx, f, ptr =>
    match fileReadExact1 f with
    | none => .ioerr (fileSeekTo f (start + ptr)) ptr
    | some (b, f') =>
      if idx < bufLen then
        match readLoop start bufLen n (idx + 1) f' (ptr + 1) with
        | .ok bs f'' ptr'' => .ok (b :: bs) f'' ptr''
        | r => r
      else .crash

/-- `partition_read` (src/partition.rs lines 6-33), the helper used by
`PartitionMutex::read`.  Note that in the fast path (`else` branch) the
returned pointer is the *unchanged* `pointer` argument, exactly as in the
source.  `end_ - pointer` is the `usize` subtraction `end - pointer`;
when `pointer > end_` it aborts (modelled by `.crash`). -/
def partition_read (bufLen : Nat) (f : FileState) (start end_ pointer : Nat) : PRead :=
  let end_byte_absolute := bufLen + pointer
  if end_ ≤ end_byte_absolute then
    if pointer ≤ end_ then
      readLoop start bufLen (end_ - pointer) 0 f pointer
    else .crash
  else
    let r := fileRead f bufLen
    .ok r.1 r.2 pointer

/-- `partition_seek` (src/partition.rs lines 35-62), the helper used by
`PartitionMutex::seek`.  Returns the new file state, the pointer value
handed back to the caller (the *unchanged* `pointer` argument, as in the
source) and the result. -/
def partition_seek (f : FileState) (start end_ pointer : Nat) (target : SeekFrom) :
    FileState × Nat × Except IoErrorKind Nat :=
  let new_real_pos := resolveSeekPos start end_ pointer target
  if new_real_pos < start then
    (f, pointer, .error .InvalidInput)
  else
    (fileSeekTo f new_real_pos, pointer, .ok (new_real_pos - start))

/-- The exclusive partition window `Partition<T>` (src/partition.rs):
`start` is the first byte of the window, `end_` the first byte past it,
`pointer` the current absolute position. -/
structure Partition where
  file : FileState
  start : Nat
  pointer : Nat
  end_ : Nat
  deriving DecidableEq, Repr

/-- Result of `Partition::read`: bytes plus the mutated window. -/
inductive ExRead where
  | ok (bytes : List Nat) (p : Partition)
  | ioerr (p : Partition)
  | crash
  deriving DecidableEq, Repr

/-- `impl Seek for Partition` (src/partition.rs lines 116-134): resolves the
target, rejects positions before `start`, seeks the source, updates
`pointer` and returns the offset within the window. -/
def Partition.seek (p : Partition) (pos : SeekFrom) : Partition × Except IoErrorKind Nat :=
  let new_real_pos := resolveSeekPos p.start p.end_ p.pointer pos
  if new_real_pos < p.start then
    (p, .error .InvalidInput)
  else
    ({ p with file := fileSeekTo p.file new_real_pos, pointer := new_real_pos },
      .ok (new_real_pos - p.start))

/-- `Partition::new` (src/partition.rs lines 75-84): builds the window with
`pointer = start`, `end = start + lenght`, then seeks to `Start(0)`. -/
def Partition.new (file : FileState) (start lenght : Nat) : Except IoErrorKind Partition :=
  let result : Partition := ⟨file, start, start, start + lenght⟩
  match Partition.seek result (.Start 0) with
  | (r, .ok _) => .ok r
  | (_, .error e) => .error e

/-- `impl Read for Partition` (src/partition.rs lines 87-114): when the read
would reach `end`, fall back to the byte-at-a-time loop reading
`end - pointer` bytes; otherwise set `pointer = pointer + buf.len()` and
delegate to the source's `read`. -/
def Partition.read (p : Partition) (bufLen : Nat) : ExRead :=
  let end_byte_absolute := p.pointer + bufLen
  if p.end_ ≤ end_byte_absolute then
    if p.pointer ≤ p.end_ then
      match readLoop p.start bufLen (p.end_ - p.pointer) 0 p.file p.pointer with
      | .ok bs f' ptr' => .ok bs { p with file := f', pointer := ptr' }
      | .ioerr f' ptr' => .ioerr { p with file := f', pointer := ptr' }
      | .crash => .crash
    else .crash
  else
    let r := fileRead p.file bufLen
    .ok r.1 { p with file := r.2, pointer := end_byte_absolute }

/-- The shared partition window `PartitionMutex<T>` (src/partition.rs):
same fields; the file is behind `Arc<Mutex<..>>` in the source, modelled
here as a directly owned state (locking always succeeds). -/
structure PartitionMutex where
  file : FileState
  start : Nat
  pointer : Nat
  end_ : Nat
  deriving DecidableEq, Repr

/-- Result of `PartitionMutex::read`. -/
inductive MxRead where
  | ok (bytes : List Nat) (p : PartitionMutex)
  | ioerr (p : PartitionMutex)
  | crash
  deriving DecidableEq, Repr

/-- `impl Read for PartitionMutex` (src/partition.rs lines 157-172): locks
the file, calls `partition_read` and stores the returned pointer back. -/
def PartitionMutex.read (p : PartitionMutex) (bufLen : Nat) : MxRead :=
  match partition_read bufLen p.file p.start p.end_ p.pointer with
  | .ok bs f' ptr' => .ok bs { p with file := f', pointer := ptr' }
  | .ioerr f' ptr' => .ioerr { p with file := f', pointer := ptr' }
  | .crash => .crash

/-- `impl Seek for PartitionMutex` (src/partition.rs lines 174-189): locks
the file, calls `partition_seek` and stores the returned pointer back. -/
def PartitionMutex.seek (p : PartitionMutex) (target : SeekFrom) :
    PartitionMutex × Except IoErrorKind Nat :=
  let r := partition_seek p.file p.start p.end_ p.pointer target
  ({ p with file := r.1, pointer := r.2.1 }, r.2.2)

/-- `PartitionMutex::new` (src/partition.rs lines 145-154). -/
def PartitionMutex.new (file : FileState) (start lenght : Nat) :
    Except IoErrorKind PartitionMutex :=
  let result : PartitionMutex := ⟨file, start, start, start + lenght⟩
  match PartitionMutex.seek result (.Start 0) with
  | (r, .ok _) => .ok r
  | (_, .error e) => .error e

/-- `impl Write for PartitionMutex`: `write` always fails with
`PermissionDenied` (src/partition.rs lines 193-195). -/
def PartitionMutex.write (_ : PartitionMutex) (_ : List Nat) : Except IoErrorKind Nat :=
  .error .PermissionDenied

/-- `impl Write for PartitionMutex`: `flush` always succeeds
(src/partition.rs lines 198-200). -/
def PartitionMutex.flush (_ : PartitionMutex) : Except IoErrorKind Unit :=
  .ok ()

/-! ### Helper lemmas about the byte loop and the underlying source -/

/-- Unfolding of a successful one-byte `read_exact`. -/
theorem fileReadExact1_eq_some {f : FileState} {b : Nat} {f' : FileState}
    (h : fileReadExact1 f = some (b, f')) :
    f.data.get? f.pos = some b ∧ f' = { f with pos := f.pos + 1 } := by
  unfold fileReadExact1 at h
  cases hg : f.data.get? f.pos with
  | none => rw [hg] at h; exact absurd h (by simp)
  | some b' =>
    rw [hg] at h
    simp at h
    obtain ⟨hb, hf⟩ := h
    cases hb
    exact ⟨rfl, hf.symm⟩

/-- Taking again as many elements as a `take` produced changes nothing. -/
theorem take_own_length (l : List Nat) (n : Nat) :
    l.take n = l.take (l.take n).length := by
  rw [List.take_eq_take, List.length_take]
  omega

/-- The bytes produced by a successful run of the byte-at-a-time loop are
exactly the bytes of the source starting at its current position. -/
theorem readLoop_ok_bytes (start bufLen : Nat) :
    ∀ (n idx : Nat) (f : FileState) (ptr : Nat) (bs : List Nat) (f' : FileState) (ptr' : Nat),
      readLoop start bufLen n idx f ptr = .ok bs f' ptr' →
      bs = (f.data.drop f.pos).take bs.length := by
  intro n
  induction n with
  | zero =>
    intro idx f ptr bs f' ptr' h
    unfold readLoop at h
    simp at h
    simp [h.1]
  | succ m ih =>
    intro idx f ptr bs f' ptr' h
    unfold readLoop at h
    cases hre : fileReadExact1 f with
    | none => rw [hre] at h; exact absurd h (by simp)
    | some bf =>
      obtain ⟨b, f2⟩ := bf
      rw [hre] at h
      dsimp only at h
      obtain ⟨hget, hf2⟩ := fileReadExact1_eq_some hre
      by_cases hidx : idx < bufLen
      · rw [if_pos hidx] at h
        cases hrec : readLoop start bufLen m (idx + 1) f2 (ptr + 1) with
        | ok bs0 f0 p0 =>
          rw [hrec] at h
          simp at h
          obtain ⟨hbs, _, _⟩ := h
          have hbs0 := ih (idx + 1) f2 (ptr + 1) bs0 f0 p0 hrec
          obtain ⟨hlt, hgetv⟩ := List.get?_eq_some.mp hget
          subst hbs
          have hfd : f2.data = f.data ∧ f2.pos = f.pos + 1 := by rw [hf2]; exact ⟨rfl, rfl⟩
          rw [hfd.1, hfd.2] at hbs0
          simp only [List.length_cons]
          rw [List.drop_eq_getElem_cons hlt, List.take_succ_cons, ← hbs0, ← hgetv]
          simp [List.get_eq_getElem]
        | ioerr f0 p0 => rw [hrec] at h; exact absurd h (by simp)
        | crash => rw [hrec] at h; exact absurd h (by simp)
      · rw [if_neg hidx] at h
        exact absurd h (by simp)

/-- The bytes produced by the source's own `read` are exactly the bytes at
its current position. -/
theorem fileRead_bytes (f : FileState) (n : Nat) :
    (fileRead f n).1 = (f.data.drop f.pos).take (fileRead f n).1.length := by
  unfold fileRead
  simp only
  exact take_own_length _ _

/-! ### Claim C1: shared-partition reads stay inside the window (refuted) -/

/-- C1 (code bug): a `PartitionMutex` window over `(start, length) = (0, 4)`
of an 8-byte source, after two 2-byte reads, answers a third 2-byte read
with the source bytes at absolute offsets 4 and 5 — outside
`[start, start + length) = [0, 4)` — because the fast path of
`partition_read` hands back the unchanged `pointer`, so the window's
pointer is never advanced while the shared cursor is.  The spec requires
that no read return data outside the window. -/
theorem partitionMutex_read_escapes_window :
    PartitionMutex.new ⟨[10, 11, 12, 13, 14, 15, 16, 17], 0⟩ 0 4
      = .ok ⟨⟨[10, 11, 12, 13, 14, 15, 16, 17], 0⟩, 0, 0, 4⟩ ∧
    PartitionMutex.read ⟨⟨[10, 11, 12, 13, 14, 15, 16, 17], 0⟩, 0, 0, 4⟩ 2
      = .ok [10, 11] ⟨⟨[10, 11, 12, 13, 14, 15, 16, 17], 2⟩, 0, 0, 4⟩ ∧
    PartitionMutex.read ⟨⟨[10, 11, 12, 13, 14, 15, 16, 17], 2⟩, 0, 0, 4⟩ 2
      = .ok [12, 13] ⟨⟨[10, 11, 12, 13, 14, 15, 16, 17], 4⟩, 0, 0, 4⟩ ∧
    PartitionMutex.read ⟨⟨[10, 11, 12, 13, 14, 15, 16, 17], 4⟩, 0, 0, 4⟩ 2
      = .ok [14, 15] ⟨⟨[10, 11, 12, 13, 14, 15, 16, 17], 6⟩, 0, 0, 4⟩ ∧
    ([10, 11, 12, 13, 14, 15, 16, 17] : List Nat).drop (0 + 4) = [14, 15, 16, 17] := by
  refine ⟨rfl, rfl, rfl, rfl, rfl⟩

/-! ### Claim C2: seek updates the window pointer (refuted for the shared window) -/

/-- C2 (code bug): `partition_seek` returns the *unchanged* `pointer`
argument on success, so `PartitionMutex::seek` leaves the window's
`pointer` field at its old value (here 0) even though the underlying
source is seeked to the resolved position 5 and `p − start = 5` is
returned.  The exclusive `Partition::seek` on the same input does update
its pointer to 5, as the spec requires of both variants. -/
theorem partitionMutex_seek_keeps_stale_pointer :
    partition_seek ⟨[10, 11, 12, 13, 14, 15, 16, 17], 0⟩ 0 8 0 (.Start 5)
      = (⟨[10, 11, 12, 13, 14, 15, 16, 17], 5⟩, 0, .ok 5) ∧
    PartitionMutex.seek ⟨⟨[10, 11, 12, 13, 14, 15, 16, 17], 0⟩, 0, 0, 8⟩ (.Start 5)
      = (⟨⟨[10, 11, 12, 13, 14, 15, 16, 17], 5⟩, 0, 0, 8⟩, .ok 5) ∧
    Partition.seek ⟨⟨[10, 11, 12, 13, 14, 15, 16, 17], 0⟩, 0, 0, 8⟩ (.Start 5)
      = (⟨⟨[10, 11, 12, 13, 14, 15, 16, 17], 5⟩, 0, 5, 8⟩, .ok 5) := by
  refine ⟨rfl, rfl, rfl⟩

/-! ### Claim C4: reads after seeking past the end are total (refuted) -/

/-- C4 (code bug): on an exclusive `Partition` window over `(0, 4)` of a
16-byte source, `seek(Start(10))` succeeds (seeking past `end` is
explicitly allowed and leaves `pointer = 10 > end = 4`), but the next
2-byte read aborts: the `usize` subtraction `end - pointer` underflows
(and in release builds the wrapped count makes the loop write past the
2-byte buffer).  The spec says such a read returns 0 bytes. -/
theorem partition_read_past_end_aborts :
    Partition.new ⟨List.range 16, 0⟩ 0 4 = .ok ⟨⟨List.range 16, 0⟩, 0, 0, 4⟩ ∧
    Partition.seek ⟨⟨List.range 16, 0⟩, 0, 0, 4⟩ (.Start 10)
      = (⟨⟨List.range 16, 10⟩, 0, 10, 4⟩, .ok 10) ∧
    Partition.read ⟨⟨List.range 16, 10⟩, 0, 10, 4⟩ 2 = .crash := by
  refine ⟨rfl, rfl, rfl⟩

/-! ### Claim C5: negative seek targets fail invalid-input (refuted) -/

/-- C5 (code bug): a seek target resolving to the negative absolute
position `end + nb = 10 − 20 = −10` is cast `as usize`, wrapping to
`2 ^ 64 − 10`.  That value is not `< start`, so instead of failing with
*invalid-input* and leaving the source untouched, the seek succeeds,
moves the underlying source to `2 ^ 64 − 10` and returns
`2 ^ 64 − 10 − start`.  Both the shared helper and the exclusive
implementation behave this way. -/
theorem partition_seek_negative_target_wraps :
    partition_seek ⟨[10, 11, 12, 13, 14, 15, 16, 17], 5⟩ 5 10 5 (.End (-20))
      = (⟨[10, 11, 12, 13, 14, 15, 16, 17], 18446744073709551606⟩, 5,
          .ok 18446744073709551601) ∧
    Partition.seek ⟨⟨[10, 11, 12, 13, 14, 15, 16, 17], 5⟩, 5, 5, 10⟩ (.End (-20))
      = (⟨⟨[10, 11, 12, 13, 14, 15, 16, 17], 18446744073709551606⟩, 5,
          18446744073709551606, 10⟩, .ok 18446744073709551601) := by
  refine ⟨rfl, rfl⟩

/-! ### Claim C7: `seek(Start(k))` returns `k` and repositions to `start + k` -/

/-- C7: for both window variants, a successful `seek(Start(k))` returns
exactly `k`, seeks the underlying source to `start + k` (for the
exclusive variant also setting `pointer = start + k`), and the next read
that returns bytes returns the source bytes starting at absolute offset
`start + k`. -/
theorem seek_start_returns_k (p : Partition) (m : PartitionMutex) (k : Nat)
    (hk : k < USIZE) (hps : p.start < USIZE) (hms : m.start < USIZE) :
    (∀ p' v, Partition.seek p (.Start k) = (p', .ok v) →
      v = k ∧ p'.pointer = p.start + k ∧ p'.file.pos = p.start + k ∧
      ∀ bufLen bytes p'', Partition.read p' bufLen = .ok bytes p'' →
        bytes = (p'.file.data.drop (p.start + k)).take bytes.length) ∧
    (∀ m' v, PartitionMutex.seek m (.Start k) = (m', .ok v) →
      v = k ∧ m'.file.pos = m.start + k ∧
      ∀ bufLen bytes m'', PartitionMutex.read m' bufLen = .ok bytes m'' →
        bytes = (m'.file.data.drop (m.start + k)).take bytes.length) := by
  constructor
  · intro p' v hseek
    unfold Partition.seek at hseek
    simp only [resolveSeekPos] at hseek
    by_cases hlt : (p.start + k) % USIZE < p.start
    · rw [if_pos hlt] at hseek
      exact absurd hseek (by simp)
    · rw [if_neg hlt] at hseek
      have hmod : (p.start + k) % USIZE = p.start + k := by
        unfold USIZE at *
        omega
      rw [hmod] at hseek
      simp at hseek
      obtain ⟨hp', hv⟩ := hseek
      subst hp'
      refine ⟨by omega, rfl, rfl, ?_⟩
      intro bufLen bytes p'' hread
      unfold Partition.read at hread
      simp only at hread
      by_cases h1 : p.start + k + bufLen < p.end_
      · rw [if_neg (by omega)] at hread
        simp at hread
        rw [hread.1.symm]
        exact fileRead_bytes _ _
      · rw [if_pos (by omega)] at hread
        by_cases h2 : p.start + k ≤ p.end_
        · rw [if_pos h2] at hread
          cases hloop : readLoop p.start bufLen (p.end_ - (p.start + k)) 0
              (fileSeekTo p.file (p.start + k)) (p.start + k) with
          | ok bs f0 p0 =>
            rw [hloop] at hread
            simp at hread
            have := readLoop_ok_bytes p.start bufLen _ _ _ _ _ _ _ hloop
            rw [hread.1.symm]
            exact this
          | ioerr f0 p0 => rw [hloop] at hread; exact absurd hread (by simp)
          | crash => rw [hloop] at hread; exact absurd hread (by simp)
        · rw [if_neg h2] at hread
          exact absurd hread (by simp)
  · intro m' v hseek
    unfold PartitionMutex.seek partition_seek at hseek
    simp only [resolveSeekPos] at hseek
    by_cases hlt : (m.start + k) % USIZE < m.start
    · rw [if_pos hlt] at hseek
      exact absurd hseek (by simp)
    · rw [if_neg hlt] at hseek
      have hmod : (m.start + k) % USIZE = m.start + k := by
        unfold USIZE at *
        omega
      rw [hmod] at hseek
      simp at hseek
      obtain ⟨hm', hv⟩ := hseek
      subst hm'
      refine ⟨by omega, rfl, ?_⟩
      intro bufLen bytes m'' hread
      unfold PartitionMutex.read partition_read at hread
      simp only at hread
      by_cases h1 : m.end_ ≤ bufLen + m.pointer
      · rw [if_pos h1] at hread
        by_cases h2 : m.pointer ≤ m.end_
        · rw [if_pos h2] at hread
          cases hloop : readLoop m.start bufLen (m.end_ - m.pointer) 0
              (fileSeekTo m.file (m.start + k)) m.pointer with
          | ok bs f0 p0 =>
            rw [hloop] at hread
            simp at hread
            have := readLoop_ok_bytes m.start bufLen _ _ _ _ _ _ _ hloop
            rw [hread.1.symm]
            exact this
          | ioerr f0 p0 => rw [hloop] at hread; exact absurd hread (by simp)
          | crash => rw [hloop] at hread; exact absurd hread (by simp)
        · rw [if_neg h2] at hread
          exact absurd hread (by simp)
      · rw [if_neg h1] at hread
        simp at hread
        rw [hread.1.symm]
        exact fileRead_bytes _ _

/-- Witness for C7: instantiated at a concrete window over an 8-byte source,
`seek(Start(3))` then a 2-byte read returns the source bytes at offsets
3 and 4. -/
theorem seek_start_returns_k_witness :
    ([4, 5] : List Nat)
      = (([1, 2, 3, 4, 5, 6, 7, 8] : List Nat).drop (0 + 3)).take
          ([4, 5] : List Nat).length :=
  ((seek_start_returns_k ⟨⟨[1, 2, 3, 4, 5, 6, 7, 8], 0⟩, 0, 0, 8⟩
      ⟨⟨[1, 2, 3, 4, 5, 6, 7, 8], 0⟩, 0, 0, 8⟩ 3 (by decide) (by decide)
      (by decide)).1 ⟨⟨[1, 2, 3, 4, 5, 6, 7, 8], 3⟩, 0, 3, 8⟩ 3
      rfl).2.2.2 2 [4, 5] ⟨⟨[1, 2, 3, 4, 5, 6, 7, 8], 5⟩, 0, 5, 8⟩
      rfl

/-! ### NCSD container parser (src/ncsd.rs) -/

/-- `read_exact` into an `n`-byte buffer: succeeds only when `n` bytes are
available at the cursor. -/
def readBytes (f : FileState) (n : Nat) : Option (List Nat × FileState) :=
  if f.pos + n ≤ f.data.length then
    some ((f.data.drop f.pos).take n, { f with pos := f.pos + n })
  else none

/-- `uN::from_le_bytes`: little-endian value of a byte list. -/
def leNum (bs : List Nat) : Nat :=
  bs.foldr (fun b acc => b + 256 * acc) 0

/-- `PartitionData` (src/lib.rs): one record of the NCSD partition table,
already scaled from sectors to bytes. -/
structure PartitionData where
  offset : Nat
  lenght : Nat
  deriving DecidableEq, Repr

/-- `NCSDError` (src/ncsd.rs); the `io::Error` payloads are dropped, the
fields the code inspects (observed magic, partition number) are kept. -/
inductive NCSDError where
  | SignatureReadError
  | MagicReadError
  | InvalidMagic (magic : List Nat)
  | ReadSizeError
  | MediaIDReadError
  | PartitionTypeReadError
  | CryptTypeReadError
  | EncryptedRom
  | ReadPartitionOffsetError (partition_nb : Nat)
  | ReadPartitionLenghtError (partition_nb : Nat)
  | ReadExHeaderHashError
  | ReadAdditionalHeaderSizeError
  | SectorZeroOffsetReadError
  | PartitionFlagReadError
  | PartitionIdReadError (partition_nb : Nat)
  | InexistingPartition (partition_nb : Nat)
  | CreatePartitionFail
  deriving DecidableEq, Repr

/-- `NCSDReader` (src/ncsd.rs). -/
structure NCSDReader where
  file : FileState
  size : Nat
  media_id : Nat
  partition_type : Nat
  partitions_id : List (List Nat)
  partition_crypt_type : List Nat
  partitions : List PartitionData
  deriving DecidableEq, Repr

/-- The `for partition_nb in 0..8` loop of `NCSDReader::new` reading the
partition table: each entry is a `u32` offset and a `u32` length, both
scaled by `0x200` (the `u32` multiplication wraps modulo `2 ^ 32` in
release builds, modelled by `% U32`). -/
def readPartitionTable : Nat → Nat → FileState → Except NCSDError (List PartitionData × FileState)
  | 0, _, f => .ok ([], f)
  | n + 1, partition_nb, f =>
    match readBytes f 4 with
    | none => .error (.ReadPartitionOffsetError partition_nb)
    | some (ob, f1) =>
      let offset := leNum ob * 0x200 % U32
      match readBytes f1 4 with
      | none => .error (.ReadPartitionLenghtError partition_nb)
      | some (lb, f2) =>
        let lenght := leNum lb * 0x200 % U32
        match readPartitionTable n (partition_nb + 1) f2 with
        | .ok (rest, f3) => .ok (⟨offset, lenght⟩ :: rest, f3)
        | .error e => .error e

/-- The `for partition_nb in 0..8` loop of `NCSDReader::new` reading the
8-byte per-partition ids. -/
def readPartitionIds : Nat → Nat → FileState → Except NCSDError (List (List Nat) × FileState)
  | 0, _, f => .ok ([], f)
  | n + 1, partition_nb, f =>
    match readBytes f 8 with
    | none => .error (.PartitionIdReadError partition_nb)
    | some (idb, f1) =>
      match readPartitionIds n (partition_nb + 1) f1 with
      | .ok (rest, f2) => .ok (idb :: rest, f2)
      | .error e => .error e

/-- `NCSDReader::new` (src/ncsd.rs lines 82-208): signature (discarded),
magic `"NCSD"`, size in sectors, media id, partition type, crypt type
(must be all zero), 8 partition records, exheader hash, additional header
size, sector-zero offset, partition flags (all discarded), 8 partition
ids. -/
def NCSDReader.new (file : FileState) : Except NCSDError NCSDReader :=
  match readBytes file 0x100 with
  | none => .error .SignatureReadError
  | some (_, f1) =>
    match readBytes f1 4 with
    | none => .error .MagicReadError
    | some (magic, f2) =>
      if magic ≠ [78, 67, 83, 68] then .error (.InvalidMagic magic)
      else
        match readBytes f2 4 with
        | none => .error .ReadSizeError
        | some (szb, f3) =>
          let size := leNum szb * 0x200 % U32
          match readBytes f3 8 with
          | none => .error .MediaIDReadError
          | some (mb, f4) =>
            let media_id := leNum mb
            match readBytes f4 8 with
            | none => .error .PartitionTypeReadError
            | some (ptb, f5) =>
              let partition_type := leNum ptb
              match readBytes f5 8 with
              | none => .error .CryptTypeReadError
              | some (ctb, f6) =>
                if ctb ≠ [0, 0, 0, 0, 0, 0, 0, 0] then .error .EncryptedRom
                else
                  match readPartitionTable 8 0 f6 with
                  | .error e => .error e
                  | .ok (partitions, f7) =>
                    match readBytes f7 0x20 with
                    | none => .error .ReadExHeaderHashError
                    | some (_, f8) =>
                      match readBytes f8 4 with
                      | none => .error .ReadAdditionalHeaderSizeError
                      | some (_, f9) =>
                        match readBytes f9 4 with
                        | none => .error .SectorZeroOffsetReadError
                        | some (_, f10) =>
                          match readBytes f10 8 with
                          | none => .error .PartitionFlagReadError
                          | some (_, f11) =>
                            match readPartitionIds 8 0 f11 with
                            | .error e => .error e
                            | .ok (partitions_id, f12) =>
                              .ok ⟨f12, size, media_id, partition_type,
                                    partitions_id, ctb, partitions⟩

/-- Result of `NCSDReader::load_partition`; `.crash` models the panic of
the vector indexing `self.partitions[partition_nb]` when the vector is
too short (never reached for parsed readers, whose table has length 8). -/
inductive LoadPartRes where
  | ok (p : Partition)
  | err (e : NCSDError)
  | crash
  deriving DecidableEq, Repr

/-- `NCSDReader::load_partition` (src/ncsd.rs lines 210-222): rejects
`partition_nb ≥ 8` and zero-offset records with `InexistingPartition`,
otherwise builds a `Partition` over the moved-in source. -/
def NCSDReader.load_partition (r : NCSDReader) (partition_nb : Nat) : LoadPartRes :=
  if 8 ≤ partition_nb then .err (.InexistingPartition partition_nb)
  else
    match r.partitions.get? partition_nb with
    | none => .crash
    | some partition =>
      if partition.offset = 0 then .err (.InexistingPartition partition_nb)
      else
        match Partition.new r.file partition.offset partition.lenght with
        | .ok value => .ok value
        | .error _ => .err .CreatePartitionFail

/-- A successfully parsed partition table has one record per requested
entry and every stored offset is below `2 ^ 32`. -/
theorem readPartitionTable_ok :
    ∀ (n partition_nb : Nat) (f : FileState) (ps : List PartitionData) (f' : FileState),
      readPartitionTable n partition_nb f = .ok (ps, f') →
      ps.length = n ∧ ∀ pd ∈ ps, pd.offset < U32 := by
  intro n
  induction n with
  | zero =>
    intro nb f ps f' h
    unfold readPartitionTable at h
    simp at h
    simp [h.1]
  | succ m ih =>
    intro nb f ps f' h
    unfold readPartitionTable at h
    cases h1 : readBytes f 4 with
    | none => rw [h1] at h; exact absurd h (by simp)
    | some v1 =>
      obtain ⟨ob, f1⟩ := v1
      rw [h1] at h
      dsimp only at h
      cases h2 : readBytes f1 4 with
      | none => rw [h2] at h; exact absurd h (by simp)
      | some v2 =>
        obtain ⟨lb, f2⟩ := v2
        rw [h2] at h
        dsimp only at h
        cases h3 : readPartitionTable m (nb + 1) f2 with
        | error e => rw [h3] at h; exact absurd h (by simp)
        | ok v3 =>
          obtain ⟨rest, f3⟩ := v3
          rw [h3] at h
          dsimp only at h
          simp at h
          obtain ⟨hps, _⟩ := h
          obtain ⟨hlen, hall⟩ := ih (nb + 1) f2 rest f3 h3
          subst hps
          refine ⟨by simp [hlen], ?_⟩
          intro pd hpd
          rcases List.mem_cons.mp hpd with hh | hh
          · subst hh
            exact Nat.mod_lt _ (by unfold U32; positivity)
          · exact hall pd hh

/-- A parsed NCSD reader always carries exactly 8 partition records, all
with offsets below `2 ^ 32`. -/
theorem NCSDReader_new_partitions {f : FileState} {r : NCSDReader}
    (h : NCSDReader.new f = .ok r) :
    r.partitions.length = 8 ∧ ∀ pd ∈ r.partitions, pd.offset < U32 := by
  unfold NCSDReader.new at h
  repeat' split at h
  all_goals simp at h
  subst h
  exact ⟨(readPartitionTable_ok 8 0 _ _ _ (by assumption)).1,
    (readPartitionTable_ok 8 0 _ _ _ (by assumption)).2⟩

/-- C8: for a parsed NCSD reader, `load_partition(n)` fails with
`InexistingPartition` exactly when `n ≥ 8` or the selected record's
offset is 0; otherwise it succeeds and builds a partition window over
the moved-in source at `(offset, offset + lenght)` with the source
seeked to `offset`. -/
theorem load_partition_characterisation (f : FileState) (r : NCSDReader) (n : Nat)
    (hr : NCSDReader.new f = .ok r) :
    (NCSDReader.load_partition r n = .err (.InexistingPartition n) ↔
      8 ≤ n ∨ (r.partitions.getD n ⟨0, 0⟩).offset = 0) ∧
    (¬ (8 ≤ n ∨ (r.partitions.getD n ⟨0, 0⟩).offset = 0) →
      NCSDReader.load_partition r n =
        .ok ⟨fileSeekTo r.file (r.partitions.getD n ⟨0, 0⟩).offset,
              (r.partitions.getD n ⟨0, 0⟩).offset,
              (r.partitions.getD n ⟨0, 0⟩).offset,
              (r.partitions.getD n ⟨0, 0⟩).offset + (r.partitions.getD n ⟨0, 0⟩).lenght⟩) := by
  obtain ⟨hlen, hoff⟩ := NCSDReader_new_partitions hr
  unfold NCSDReader.load_partition
  by_cases h8 : 8 ≤ n
  · rw [if_pos h8]
    exact ⟨⟨fun _ => Or.inl h8, fun _ => rfl⟩, fun hc => absurd (Or.inl h8) hc⟩
  · rw [if_neg h8]
    have hn : n < r.partitions.length := by omega
    have hget : r.partitions.get? n = some (r.partitions.getD n ⟨0, 0⟩) := by
      rw [List.get?_eq_getElem?, List.getElem?_eq_getElem hn, List.getD_eq_getElem _ _ hn]
    rw [hget]
    dsimp only
    by_cases hz : (r.partitions.getD n ⟨0, 0⟩).offset = 0
    · rw [if_pos hz]
      exact ⟨⟨fun _ => Or.inr hz, fun _ => rfl⟩, fun hc => absurd (Or.inr hz) hc⟩
    · rw [if_neg hz]
      have hmem : r.partitions.getD n ⟨0, 0⟩ ∈ r.partitions := by
        rw [List.getD_eq_getElem _ _ hn]
        exact List.getElem_mem hn
      have hlt : (r.partitions.getD n ⟨0, 0⟩).offset < U32 := hoff _ hmem
      have hnew : Partition.new r.file (r.partitions.getD n ⟨0, 0⟩).offset
          (r.partitions.getD n ⟨0, 0⟩).lenght =
          .ok ⟨fileSeekTo r.file (r.partitions.getD n ⟨0, 0⟩).offset,
                (r.partitions.getD n ⟨0, 0⟩).offset,
                (r.partitions.getD n ⟨0, 0⟩).offset,
                (r.partitions.getD n ⟨0, 0⟩).offset + (r.partitions.getD n ⟨0, 0⟩).lenght⟩ := by
        unfold Partition.new Partition.seek
        simp only [resolveSeekPos]
        have hm : ((r.partitions.getD n ⟨0, 0⟩).offset + 0) % USIZE =
            (r.partitions.getD n ⟨0, 0⟩).offset := by
          unfold USIZE
          unfold U32 at hlt
          omega
        rw [hm, if_neg (lt_irrefl _)]
      rw [hnew]
      exact ⟨⟨fun hcon => absurd hcon (by simp), fun hor => absurd hor (by
        intro hor
        rcases hor with hh | hh
        · exact h8 hh
        · exact hz hh)⟩, fun _ => rfl⟩

/-- A well-formed 464-byte NCSD header: valid magic, unencrypted, image
size 1 sector, partition 0 at sector offset 1 with length 2 sectors, the
remaining seven records zeroed. -/
def ncsdImage : List Nat :=
  List.replicate 0x100 0 ++ [78, 67, 83, 68] ++ [1, 0, 0, 0] ++
    List.replicate 8 0 ++ List.replicate 8 0 ++ List.replicate 8 0 ++
    ([1, 0, 0, 0] ++ [2, 0, 0, 0] ++ List.replicate 56 0) ++
    List.replicate 0x20 0 ++ List.replicate 4 0 ++ List.replicate 4 0 ++
    List.replicate 8 0 ++ List.replicate 64 0

/-- The reader value produced by parsing `ncsdImage`. -/
def ncsdReaderW : NCSDReader :=
  ⟨⟨ncsdImage, 464⟩, 512, 0, 0, List.replicate 8 (List.replicate 8 0),
    List.replicate 8 0, ⟨512, 1024⟩ :: List.replicate 7 ⟨0, 0⟩⟩

set_option maxRecDepth 10000

/-- Witness for C8: on the parsed `ncsdImage`, `load_partition(0)` yields a
window over bytes `[512, 512 + 1024)`. -/
theorem load_partition_characterisation_witness :
    NCSDReader.load_partition ncsdReaderW 0 =
      .ok ⟨fileSeekTo ncsdReaderW.file ((ncsdReaderW.partitions.getD 0 ⟨0, 0⟩).offset),
            (ncsdReaderW.partitions.getD 0 ⟨0, 0⟩).offset,
            (ncsdReaderW.partitions.getD 0 ⟨0, 0⟩).offset,
            (ncsdReaderW.partitions.getD 0 ⟨0, 0⟩).offset +
              (ncsdReaderW.partitions.getD 0 ⟨0, 0⟩).lenght⟩ :=
  (load_partition_characterisation ⟨ncsdImage, 0⟩ ncsdReaderW 0 rfl).2 (by decide)

/-! ### IVFC RomFS directory engine (src/ivfc.rs) -/

/-- `IVFCError` (src/ivfc.rs); `io::Error` payloads and the `&'static str`
field tags are dropped, other payloads kept. -/
inductive IVFCError where
  | ReadError
  | SeekError
  | FirstMagicError (magic : List Nat)
  | SecondMagicError (magic : List Nat)
  | Level3HeaderLenghtInvalid (lenght : Nat)
  | UTF16LenghtNonMultiple2 (lenght : Nat)
  | ToUTF16Error
  | DirNotFound
  | FileNotFound
  | Poisoned
  deriving DecidableEq, Repr

/-- `IVFC_read_u32`: 4 bytes little-endian, `ReadError` at end of data. -/
def IVFC_read_u32 (f : FileState) : Except IVFCError (Nat × FileState) :=
  match readBytes f 4 with
  | none => .error .ReadError
  | some (bs, f') => .ok (leNum bs, f')

/-- `IVFC_read_u64`: 8 bytes little-endian. -/
def IVFC_read_u64 (f : FileState) : Except IVFCError (Nat × FileState) :=
  match readBytes f 8 with
  | none => .error .ReadError
  | some (bs, f') => .ok (leNum bs, f')

/-- `String::from_utf16`: turns UTF-16 code units into code points,
failing on unpaired surrogates (strings are modelled as code-point
lists, so that Rust `String` equality is list equality). -/
def utf16Decode : List Nat → Option (List Nat)
  | [] => some []
  | u :: rest =>
    if u < 0xD800 || 0xE000 ≤ u then
      match utf16Decode rest with
      | some l => some (u :: l)
      | none => none
    else
      if u < 0xDC00 then
        match rest with
        | u2 :: rest2 =>
          if 0xDC00 ≤ u2 && u2 < 0xE000 then
            match utf16Decode rest2 with
            | some l => some ((0x10000 + (u - 0xD800) * 0x400 + (u2 - 0xDC00)) :: l)
            | none => none
          else none
        | [] => none
      else none

/-- The `for _ in 0..lenght / 2` loop of `IVFC_read_utf_16`: reads `n`
16-bit little-endian code units. -/
def readU16s : Nat → FileState → Except IVFCError (List Nat × FileState)
  | 0, f => .ok ([], f)
  | n + 1, f =>
    match readBytes f 2 with
    | none => .error .ReadError
    | some (bs, f') =>
      match readU16s n f' with
      | .ok (rest, f'') => .ok (leNum bs :: rest, f'')
      | .error e => .error e

/-- `IVFC_read_utf_16` (src/ivfc.rs lines 111-133): rejects odd byte
lengths, reads `lenght / 2` code units, decodes them. -/
def IVFC_read_utf_16 (f : FileState) (lenght : Nat) : Except IVFCError (List Nat × FileState) :=
  if lenght % 2 ≠ 0 then .error (.UTF16LenghtNonMultiple2 lenght)
  else
    match readU16s (lenght / 2) f with
    | .error e => .error e
    | .ok (string_numbered, f') =>
      match utf16Decode string_numbered with
      | some value => .ok (value, f')
      | none => .error .ToUTF16Error

/-- The `0xFFFF_FFFF` absent-offset sentinel mapping used by the metadata
parsers. -/
def optOffset (v : Nat) : Option Nat :=
  if v = 0xFFFFFFFF then none else some v

/-- `DirectoryMetadata` (src/ivfc.rs). -/
structure DirectoryMetadata where
  offset_parent : Option Nat
  offset_next_sibling : Option Nat
  offset_first_subdir : Option Nat
  offset_first_file : Option Nat
  name : Option (List Nat)
  deriving DecidableEq, Repr

/-- `DirectoryMetadata::new` (src/ivfc.rs lines 151-198): five `u32`
fields (parent kept as `Some`, the three chain offsets run through the
sentinel mapping, the hash-bucket offset discarded), then — only for
non-root records — a `u32` name length and the UTF-16 name. -/
def DirectoryMetadata.new (f : FileState) (is_root : Bool) :
    Except IVFCError (DirectoryMetadata × FileState) :=
  match IVFC_read_u32 f with
  | .error e => .error e
  | .ok (parent, f1) =>
    match IVFC_read_u32 f1 with
    | .error e => .error e
    | .ok (sib, f2) =>
      match IVFC_read_u32 f2 with
      | .error e => .error e
      | .ok (subdir, f3) =>
        match IVFC_read_u32 f3 with
        | .error e => .error e
        | .ok (firstfile, f4) =>
          match IVFC_read_u32 f4 with
          | .error e => .error e
          | .ok (_, f5) =>
            if ¬is_root then
              match IVFC_read_u32 f5 with
              | .error e => .error e
              | .ok (name_lenght, f6) =>
                match IVFC_read_utf_16 f6 name_lenght with
                | .error e => .error e
                | .ok (nm, f7) =>
                  .ok (⟨some parent, optOffset sib, optOffset subdir,
                         optOffset firstfile, some nm⟩, f7)
            else
              .ok (⟨some parent, optOffset sib, optOffset subdir,
                     optOffset firstfile, none⟩, f5)

/-- `FileMetadata` (src/ivfc.rs). -/
structure FileMetadata where
  offset_parent : Nat
  offset_sibling : Option Nat
  offset_file_data : Nat
  lenght_file_data : Nat
  name : List Nat
  deriving DecidableEq, Repr

/-- `FileMetadata::new` (src/ivfc.rs lines 211-233). -/
def FileMetadata.new (f : FileState) : Except IVFCError (FileMetadata × FileState) :=
  match IVFC_read_u32 f with
  | .error e => .error e
  | .ok (parent, f1) =>
    match IVFC_read_u32 f1 with
    | .error e => .error e
    | .ok (sib, f2) =>
      match IVFC_read_u64 f2 with
      | .error e => .error e
      | .ok (offset_file_data, f3) =>
        match IVFC_read_u64 f3 with
        | .error e => .error e
        | .ok (lenght_file_data, f4) =>
          match IVFC_read_u32 f4 with
          | .error e => .error e
          | .ok (_, f5) =>
            match IVFC_read_u32 f5 with
            | .error e => .error e
            | .ok (name_lenght, f6) =>
              match IVFC_read_utf_16 f6 name_lenght with
              | .error e => .error e
              | .ok (nm, f7) =>
                .ok (⟨parent, optOffset sib, offset_file_data,
                       lenght_file_data, nm⟩, f7)

/-- `DirectoryOrFile` (src/ivfc.rs). -/
inductive DirectoryOrFile where
  | Dir (d : DirectoryMetadata)
  | File (fm : FileMetadata)
  deriving DecidableEq, Repr

/-- `IVFCReader` (src/ivfc.rs): the mutex-protected stream is modelled by
the owned `file` state (locking always succeeds, and the cursor position
left by one locked section is irrelevant to the next because every read
is preceded by an absolute seek). -/
structure IVFCReader where
  file : FileState
  dir_metadata_part_offset : Nat
  file_metadata_part_offset : Nat
  first_dir_metadata : DirectoryMetadata
  file_data_offset : Nat
  deriving DecidableEq, Repr

/-- Result of the directory-chain walk inside `get_child`; `.crash` models
the `unwrap` panic on a missing name, `.nofuel` an exhausted walk budget
(the Rust loop would spin on cyclic chains). -/
inductive DirLoopRes where
  | found (d : DirectoryMetadata)
  | exhausted (f : FileState)
  | err (e : IVFCError)
  | crash
  | nofuel
  deriving DecidableEq, Repr

/-- The first loop of `get_child` (src/ivfc.rs lines 345-359): compare the
unwrapped name of the current record with the path, follow
`offset_next_sibling` (a `u32` addition with the metadata base, which
wraps modulo `2 ^ 32`), reparse, repeat. -/
def getChildDirLoop (r : IVFCReader) : Nat → FileState → DirectoryMetadata → List Nat → DirLoopRes
  | fuel, f, actual_subdir, path =>
    match actual_subdir.name with
    | none => .crash
    | some nm =>
      if nm = path then .found actual_subdir
      else
        match actual_subdir.offset_next_sibling with
        | none => .exhausted f
        | some value =>
          match fuel with
          | 0 => .nofuel
          | fuel + 1 =>
            match DirectoryMetadata.new
                (fileSeekTo f ((value + r.dir_metadata_part_offset) % U32)) false with
            | .error e => .err e
            | .ok (md, f2) => getChildDirLoop r fuel f2 md path

/-- Result of the file-chain walk inside `get_child`. -/
inductive FileLoopRes where
  | found (fm : FileMetadata)
  | exhausted (f : FileState)
  | err (e : IVFCError)
  | nofuel
  deriving DecidableEq, Repr

/-- The second loop of `get_child` (src/ivfc.rs lines 370-383). -/
def getChildFileLoop (r : IVFCReader) : Nat → FileState → FileMetadata → List Nat → FileLoopRes
  | fuel, f, actual_file, path =>
    if actual_file.name = path then .found actual_file
    else
      match actual_file.offset_sibling with
      | none => .exhausted f
      | some value =>
        match fuel with
        | 0 => .nofuel
        | fuel + 1 =>
          match FileMetadata.new
              (fileSeekTo f ((value + r.file_metadata_part_offset) % U32)) with
          | .error e => .err e
          | .ok (fm, f2) => getChildFileLoop r fuel f2 fm path

/-- Result of `get_child`. -/
inductive ChildRes where
  | ok (c : DirectoryOrFile)
  | err (e : IVFCError)
  | crash
  | nofuel
  deriving DecidableEq, Repr

/-- `IVFCReader::get_child` (src/ivfc.rs lines 327-385): a missing
`offset_first_subdir` fails `DirNotFound` at once; otherwise the
directory chain is walked, and only after it is exhausted is the file
chain consulted (a missing `offset_first_file` fails `FileNotFound`, as
does exhausting the file chain). -/
def IVFCReader.get_child (r : IVFCReader) (dir : DirectoryMetadata) (path : List Nat)
    (fuel : Nat) : ChildRes :=
  match dir.offset_first_subdir with
  | none => .err .DirNotFound
  | some value =>
    match DirectoryMetadata.new
        (fileSeekTo r.file ((value + r.dir_metadata_part_offset) % U32)) false with
    | .error e => .err e
    | .ok (actual_subdir, f2) =>
      match getChildDirLoop r fuel f2 actual_subdir path with
      | .found d => .ok (.Dir d)
      | .err e => .err e
      | .crash => .crash
      | .nofuel => .nofuel
      | .exhausted f3 =>
        match dir.offset_first_file with
        | none => .err .FileNotFound
        | some v2 =>
          match FileMetadata.new
              (fileSeekTo f3 ((v2 + r.file_metadata_part_offset) % U32)) with
          | .error e => .err e
          | .ok (actual_file, f5) =>
            match getChildFileLoop r fuel f5 actual_file path with
            | .found fm => .ok (.File fm)
            | .err e => .err e
            | .nofuel => .nofuel
            | .exhausted _ => .err .FileNotFound

/-- Result of the `list_*_child` operations: the accumulated name list and
the final stream state on success. -/
inductive LsRes where
  | ok (childs : List (List Nat)) (f : FileState)
  | err (e : IVFCError)
  | crash
  | nofuel
  deriving DecidableEq, Repr

/-- The loop of `list_file_child` (src/ivfc.rs lines 414-433): push the
current name, follow `offset_sibling + file_metadata_part_offset`
(a `u64` addition), reparse, repeat. -/
def listFileLoop (r : IVFCReader) : Nat → FileState → FileMetadata → List (List Nat) → LsRes
  | fuel, f, actual_file_metadata, childs =>
    let childs1 := childs ++ [actual_file_metadata.name]
    match actual_file_metadata.offset_sibling with
    | none => .ok childs1 f
    | some value =>
      match fuel with
      | 0 => .nofuel
      | fuel + 1 =>
        match FileMetadata.new (fileSeekTo f (value + r.file_metadata_part_offset)) with
        | .error e => .err e
        | .ok (fm, f2) => listFileLoop r fuel f2 fm childs1

/-- `IVFCReader::list_file_child` (src/ivfc.rs lines 387-434): an absent
`offset_first_file` contributes nothing and is not an error. -/
def IVFCReader.list_file_child (r : IVFCReader) (dir : DirectoryMetadata)
    (childs : List (List Nat)) (fuel : Nat) : LsRes :=
  match dir.offset_first_file with
  | none => .ok childs r.file
  | some value =>
    match FileMetadata.new (fileSeekTo r.file (value + r.file_metadata_part_offset)) with
    | .error e => .err e
    | .ok (fm, f2) => listFileLoop r fuel f2 fm childs

/-- The loop of `list_dir_child` (src/ivfc.rs lines 463-482): push the
current *unwrapped* name (`.crash` on a missing one), follow the sibling
offset, reparse, repeat. -/
def listDirLoop (r : IVFCReader) : Nat → FileState → DirectoryMetadata → List (List Nat) → LsRes
  | fuel, f, actual_dir_metadata, childs =>
    match actual_dir_metadata.name with
    | none => .crash
    | some nm =>
      let childs1 := childs ++ [nm]
      match actual_dir_metadata.offset_next_sibling with
      | none => .ok childs1 f
      | some value =>
        match fuel with
        | 0 => .nofuel
        | fuel + 1 =>
          match DirectoryMetadata.new
              (fileSeekTo f (value + r.dir_metadata_part_offset)) false with
          | .error e => .err e
          | .ok (md, f2) => listDirLoop r fuel f2 md childs1

/-- `IVFCReader::list_dir_child` (src/ivfc.rs lines 436-483). -/
def IVFCReader.list_dir_child (r : IVFCReader) (dir : DirectoryMetadata)
    (childs : List (List Nat)) (fuel : Nat) : LsRes :=
  match dir.offset_first_subdir with
  | none => .ok childs r.file
  | some value =>
    match DirectoryMetadata.new
        (fileSeekTo r.file (value + r.dir_metadata_part_offset)) false with
    | .error e => .err e
    | .ok (md, f2) => listDirLoop r fuel f2 md childs

/-- Result of `list_child`. -/
inductive LcRes where
  | ok (childs : List (List Nat))
  | err (e : IVFCError)
  | crash
  | nofuel
  deriving DecidableEq, Repr

/-- `IVFCReader::list_child` (src/ivfc.rs lines 485-490): file names first,
then directory names, into the same accumulator. -/
def IVFCReader.list_child (r : IVFCReader) (dir : DirectoryMetadata) (fuel : Nat) : LcRes :=
  match r.list_file_child dir [] fuel with
  | .err e => .err e
  | .crash => .crash
  | .nofuel => .nofuel
  | .ok childs _ =>
    match r.list_dir_child dir childs fuel with
    | .err e => .err e
    | .crash => .crash
    | .nofuel => .nofuel
    | .ok childs2 _ => .ok childs2

/-- `IVFCReader::get_file_real_offset` (src/ivfc.rs lines 492-494). -/
def IVFCReader.get_file_real_offset (r : IVFCReader) (fm : FileMetadata) : Nat :=
  fm.offset_file_data + r.file_data_offset

/-- Follows the spec's words for the file half of children enumeration:
walk the file-sibling chain, collecting each record's name in chain
order (no accumulator threading; used to state the claim that
`list_child` returns exactly these names). -/
def specFileChainGo (r : IVFCReader) : Nat → FileState → FileMetadata → LsRes
  | fuel, f, fm =>
    match fm.offset_sibling with
    | none => .ok [fm.name] f
    | some value =>
      match fuel with
      | 0 => .nofuel
      | fuel + 1 =>
        match FileMetadata.new (fileSeekTo f (value + r.file_metadata_part_offset)) with
        | .error e => .err e
        | .ok (fm2, f2) =>
          match specFileChainGo r fuel f2 fm2 with
          | .ok ns f3 => .ok (fm.name :: ns) f3
          | other => other

/-- Follows the spec's words: the names of `dir`'s files in
file-sibling-chain order; an absent head offset contributes nothing. -/
def specFileChainNames (r : IVFCReader) (dir : DirectoryMetadata) (fuel : Nat) : LsRes :=
  match dir.offset_first_file with
  | none => .ok [] r.file
  | some value =>
    match FileMetadata.new (fileSeekTo r.file (value + r.file_metadata_part_offset)) with
    | .error e => .err e
    | .ok (fm, f2) => specFileChainGo r fuel f2 fm

/-- Follows the spec's words for the directory half of children
enumeration. -/
def specDirChainGo (r : IVFCReader) : Nat → FileState → DirectoryMetadata → LsRes
  | fuel, f, dm =>
    match dm.name with
    | none => .crash
    | some nm =>
      match dm.offset_next_sibling with
      | none => .ok [nm] f
      | some value =>
        match fuel with
        | 0 => .nofuel
        | fuel + 1 =>
          match DirectoryMetadata.new
              (fileSeekTo f (value + r.dir_metadata_part_offset)) false with
          | .error e => .err e
          | .ok (md, f2) =>
            match specDirChainGo r fuel f2 md with
            | .ok ns f3 => .ok (nm :: ns) f3
            | other => other

/-- Follows the spec's words: the names of `dir`'s subdirectories in
directory-sibling-chain order. -/
def specDirChainNames (r : IVFCReader) (dir : DirectoryMetadata) (fuel : Nat) : LsRes :=
  match dir.offset_first_subdir with
  | none => .ok [] r.file
  | some value =>
    match DirectoryMetadata.new
        (fileSeekTo r.file (value + r.dir_metadata_part_offset)) false with
    | .error e => .err e
    | .ok (md, f2) => specDirChainGo r fuel f2 md

/-- A 34-byte file-metadata record: parent 0, no sibling, data offset 0,
data length 5, name U+0061. -/
def fmBytesA : List Nat :=
  [0, 0, 0, 0, 255, 255, 255, 255] ++ List.replicate 8 0 ++ [5, 0, 0, 0, 0, 0, 0, 0] ++
    [0, 0, 0, 0, 2, 0, 0, 0, 97, 0]

/-- A 26-byte non-root directory-metadata record: parent 0, no sibling, no
subdirectory, no file, name U+0062. -/
def dmBytesB : List Nat :=
  [0, 0, 0, 0, 255, 255, 255, 255, 255, 255, 255, 255, 255, 255, 255, 255,
    0, 0, 0, 0, 2, 0, 0, 0, 98, 0]

/-- A directory record with no subdirectory chain but a file chain starting
at relative offset 0. -/
def dirOnlyFiles : DirectoryMetadata := ⟨some 0, none, none, some 0, none⟩

/-- A reader over a stream holding just `fmBytesA`, with both metadata
bases at 0. -/
def readerOnlyFiles : IVFCReader := ⟨⟨fmBytesA, 0⟩, 0, 0, dirOnlyFiles, 0⟩

/-- C3 counterexample: `dirOnlyFiles` has no first-subdir offset but its
file chain contains exactly the name U+0061 (second conjunct), yet
`get_child` for that very name returns `DirNotFound` instead of the
claimed `File(...)`: the missing subdir head is rejected up front and
the file chain is never searched. -/
theorem get_child_no_subdir_skips_file_chain :
    IVFCReader.get_child readerOnlyFiles dirOnlyFiles [97] 5 = .err .DirNotFound ∧
    IVFCReader.list_file_child readerOnlyFiles dirOnlyFiles [] 5
      = .ok [[97]] ⟨fmBytesA, 34⟩ := by
  refine ⟨rfl, rfl⟩

/-- C3 amended: `get_child` fails `DirNotFound` exactly when `dir` has no
first-subdir offset (without consulting files); when the directory chain
exists but exhausts without a match, the total failure is `FileNotFound`
both when `dir` has no first-file offset and when the file chain
exhausts without a match. -/
theorem get_child_error_shape (r : IVFCReader) (dir : DirectoryMetadata) (path : List Nat)
    (fuel : Nat) :
    (dir.offset_first_subdir = none →
      IVFCReader.get_child r dir path fuel = .err .DirNotFound) ∧
    (∀ v md f2 f3, dir.offset_first_subdir = some v →
      DirectoryMetadata.new
          (fileSeekTo r.file ((v + r.dir_metadata_part_offset) % U32)) false = .ok (md, f2) →
      getChildDirLoop r fuel f2 md path = .exhausted f3 →
      dir.offset_first_file = none →
      IVFCReader.get_child r dir path fuel = .err .FileNotFound) ∧
    (∀ v md f2 f3 w fm f5 f6, dir.offset_first_subdir = some v →
      DirectoryMetadata.new
          (fileSeekTo r.file ((v + r.dir_metadata_part_offset) % U32)) false = .ok (md, f2) →
      getChildDirLoop r fuel f2 md path = .exhausted f3 →
      dir.offset_first_file = some w →
      FileMetadata.new (fileSeekTo f3 ((w + r.file_metadata_part_offset) % U32)) = .ok (fm, f5) →
      getChildFileLoop r fuel f5 fm path = .exhausted f6 →
      IVFCReader.get_child r dir path fuel = .err .FileNotFound) := by
  refine ⟨?_, ?_, ?_⟩
  · intro h
    unfold IVFCReader.get_child
    rw [h]
  · intro v md f2 f3 h1 h2 h3 h4
    unfold IVFCReader.get_child
    rw [h1]
    dsimp only
    rw [h2]
    dsimp only
    rw [h3]
    dsimp only
    rw [h4]
  · intro v md f2 f3 w fm f5 f6 h1 h2 h3 h4 h5 h6
    unfold IVFCReader.get_child
    rw [h1]
    dsimp only
    rw [h2]
    dsimp only
    rw [h3]
    dsimp only
    rw [h4]
    dsimp only
    rw [h5]
    dsimp only
    rw [h6]

/-- A directory record whose subdirectory chain starts at relative offset 0
and which has no file chain. -/
def dirOnlySubdir : DirectoryMetadata := ⟨some 0, none, some 0, none, none⟩

/-- A reader over a stream holding just `dmBytesB`. -/
def readerOnlySubdir : IVFCReader := ⟨⟨dmBytesB, 0⟩, 0, 0, dirOnlySubdir, 0⟩

/-- Witness for the amended C3: looking up a name that matches nothing in a
directory whose single-subdirectory chain exhausts and which has no file
chain fails with `FileNotFound` (not `DirNotFound`). -/
theorem get_child_error_shape_witness :
    IVFCReader.get_child readerOnlySubdir dirOnlySubdir [99] 5 = .err .FileNotFound :=
  (get_child_error_shape readerOnlySubdir dirOnlySubdir [99] 5).2.1 0
    ⟨some 0, none, none, none, some [98]⟩ ⟨dmBytesB, 26⟩ ⟨dmBytesB, 26⟩ rfl rfl rfl rfl

/-- The imperative accumulator loop of `list_file_child` produces exactly
the accumulator followed by the file-sibling-chain names. -/
theorem listFileLoop_spec (r : IVFCReader) :
    ∀ (fuel : Nat) (f : FileState) (fm : FileMetadata) (childs l : List (List Nat))
      (f' : FileState),
      listFileLoop r fuel f fm childs = .ok l f' →
      ∃ ns, specFileChainGo r fuel f fm = .ok ns f' ∧ l = childs ++ ns := by
  intro fuel
  induction fuel with
  | zero =>
    intro f fm childs l f' h
    unfold listFileLoop at h
    unfold specFileChainGo
    cases hsib : fm.offset_sibling with
    | none =>
      rw [hsib] at h
      dsimp only at h
      simp at h
      obtain ⟨hl, hf⟩ := h
      subst hl
      subst hf
      exact ⟨[fm.name], rfl, rfl⟩
    | some v =>
      rw [hsib] at h
      dsimp only at h
      exact absurd h (by simp)
  | succ m ih =>
    intro f fm childs l f' h
    unfold listFileLoop at h
    unfold specFileChainGo
    cases hsib : fm.offset_sibling with
    | none =>
      rw [hsib] at h
      dsimp only at h
      simp at h
      obtain ⟨hl, hf⟩ := h
      subst hl
      subst hf
      exact ⟨[fm.name], rfl, rfl⟩
    | some v =>
      rw [hsib] at h
      dsimp only at h
      cases hnew : FileMetadata.new (fileSeekTo f (v + r.file_metadata_part_offset)) with
      | error e =>
        rw [hnew] at h
        exact absurd h (by simp)
      | ok pr =>
        obtain ⟨fm2, f2⟩ := pr
        rw [hnew] at h
        dsimp only at h
        obtain ⟨ns2, hspec, hl⟩ := ih f2 fm2 (childs ++ [fm.name]) l f' h
        dsimp only
        rw [hnew]
        dsimp only
        rw [hspec]
        exact ⟨fm.name :: ns2, rfl, by simp [hl]⟩

/-- `list_file_child` appends exactly the file-sibling-chain names of
`dir` to its accumulator. -/
theorem list_file_child_spec (r : IVFCReader) (dir : DirectoryMetadata) (fuel : Nat) :
    ∀ (childs l : List (List Nat)) (f' : FileState),
      IVFCReader.list_file_child r dir childs fuel = .ok l f' →
      ∃ ns, specFileChainNames r dir fuel = .ok ns f' ∧ l = childs ++ ns := by
  intro childs l f' h
  unfold IVFCReader.list_file_child at h
  unfold specFileChainNames
  cases hff : dir.offset_first_file with
  | none =>
    rw [hff] at h
    simp at h
    obtain ⟨hl, hf⟩ := h
    subst hl
    subst hf
    exact ⟨[], rfl, by simp⟩
  | some v =>
    rw [hff] at h
    dsimp only at h
    cases hnew : FileMetadata.new (fileSeekTo r.file (v + r.file_metadata_part_offset)) with
    | error e =>
      rw [hnew] at h
      exact absurd h (by simp)
    | ok pr =>
      obtain ⟨fm, f2⟩ := pr
      rw [hnew] at h
      dsimp only at h
      obtain ⟨ns, hspec, hl⟩ := listFileLoop_spec r fuel f2 fm childs l f' h
      dsimp only
      rw [hnew]
      exact ⟨ns, hspec, hl⟩

/-- The imperative accumulator loop of `list_dir_child` produces exactly
the accumulator followed by the directory-sibling-chain names. -/
theorem listDirLoop_spec (r : IVFCReader) :
    ∀ (fuel : Nat) (f : FileState) (dm : DirectoryMetadata) (childs l : List (List Nat))
      (f' : FileState),
      listDirLoop r fuel f dm childs = .ok l f' →
      ∃ ns, specDirChainGo r fuel f dm = .ok ns f' ∧ l = childs ++ ns := by
  intro fuel
  induction fuel with
  | zero =>
    intro f dm childs l f' h
    unfold listDirLoop at h
    unfold specDirChainGo
    cases hname : dm.name with
    | none =>
      rw [hname] at h
      exact absurd h (by simp)
    | some nm =>
      rw [hname] at h
      dsimp only at h
      cases hsib : dm.offset_next_sibling with
      | none =>
        rw [hsib] at h
        dsimp only at h
        simp at h
        obtain ⟨hl, hf⟩ := h
        subst hl
        subst hf
        exact ⟨[nm], rfl, rfl⟩
      | some v =>
        rw [hsib] at h
        dsimp only at h
        exact absurd h (by simp)
  | succ m ih =>
    intro f dm childs l f' h
    unfold listDirLoop at h
    unfold specDirChainGo
    cases hname : dm.name with
    | none =>
      rw [hname] at h
      exact absurd h (by simp)
    | some nm =>
      rw [hname] at h
      dsimp only at h
      cases hsib : dm.offset_next_sibling with
      | none =>
        rw [hsib] at h
        dsimp only at h
        simp at h
        obtain ⟨hl, hf⟩ := h
        subst hl
        subst hf
        exact ⟨[nm], rfl, rfl⟩
      | some v =>
        rw [hsib] at h
        dsimp only at h
        cases hnew : DirectoryMetadata.new
            (fileSeekTo f (v + r.dir_metadata_part_offset)) false with
        | error e =>
          rw [hnew] at h
          exact absurd h (by simp)
        | ok pr =>
          obtain ⟨dm2, f2⟩ := pr
          rw [hnew] at h
          dsimp only at h
          obtain ⟨ns2, hspec, hl⟩ := ih f2 dm2 (childs ++ [nm]) l f' h
          dsimp only
          rw [hnew]
          dsimp only
          rw [hspec]
          exact ⟨nm :: ns2, rfl, by simp [hl]⟩

/-- `list_dir_child` appends exactly the directory-sibling-chain names of
`dir` to its accumulator. -/
theorem list_dir_child_spec (r : IVFCReader) (dir : DirectoryMetadata) (fuel : Nat) :
    ∀ (childs l : List (List Nat)) (f' : FileState),
      IVFCReader.list_dir_child r dir childs fuel = .ok l f' →
      ∃ ns, specDirChainNames r dir fuel = .ok ns f' ∧ l = childs ++ ns := by
  intro childs l f' h
  unfold IVFCReader.list_dir_child at h
  unfold specDirChainNames
  cases hfs : dir.offset_first_subdir with
  | none =>
    rw [hfs] at h
    simp at h
    obtain ⟨hl, hf⟩ := h
    subst hl
    subst hf
    exact ⟨[], rfl, by simp⟩
  | some v =>
    rw [hfs] at h
    dsimp only at h
    cases hnew : DirectoryMetadata.new
        (fileSeekTo r.file (v + r.dir_metadata_part_offset)) false with
    | error e =>
      rw [hnew] at h
      exact absurd h (by simp)
    | ok pr =>
      obtain ⟨dm, f2⟩ := pr
      rw [hnew] at h
      dsimp only at h
      obtain ⟨ns, hspec, hl⟩ := listDirLoop_spec r fuel f2 dm childs l f' h
      dsimp only
      rw [hnew]
      exact ⟨ns, hspec, hl⟩

/-- C6: a successful `list_child(dir)` returns the file-sibling-chain
names followed by the directory-sibling-chain names; an absent head
offset contributes nothing and raises no error, so a directory with
neither chain yields the empty list. -/
theorem list_child_names (r : IVFCReader) (dir : DirectoryMetadata) (fuel : Nat) :
    (∀ names, IVFCReader.list_child r dir fuel = .ok names →
      ∃ fns f1 dns f2, specFileChainNames r dir fuel = .ok fns f1 ∧
        specDirChainNames r dir fuel = .ok dns f2 ∧ names = fns ++ dns) ∧
    (dir.offset_first_file = none → ∀ childs,
      IVFCReader.list_file_child r dir childs fuel = .ok childs r.file) ∧
    (dir.offset_first_subdir = none → ∀ childs,
      IVFCReader.list_dir_child r dir childs fuel = .ok childs r.file) ∧
    (dir.offset_first_file = none → dir.offset_first_subdir = none →
      IVFCReader.list_child r dir fuel = .ok []) := by
  refine ⟨?_, ?_, ?_, ?_⟩
  · intro names h
    unfold IVFCReader.list_child at h
    cases hf : IVFCReader.list_file_child r dir [] fuel with
    | err e => rw [hf] at h; exact absurd h (by simp)
    | crash => rw [hf] at h; exact absurd h (by simp)
    | nofuel => rw [hf] at h; exact absurd h (by simp)
    | ok childs fx =>
      rw [hf] at h
      dsimp only at h
      obtain ⟨fns, hfspec, hchilds⟩ := list_file_child_spec r dir fuel [] childs fx hf
      cases hd : IVFCReader.list_dir_child r dir childs fuel with
      | err e => rw [hd] at h; exact absurd h (by simp)
      | crash => rw [hd] at h; exact absurd h (by simp)
      | nofuel => rw [hd] at h; exact absurd h (by simp)
      | ok childs2 fy =>
        rw [hd] at h
        dsimp only at h
        simp at h
        subst h
        obtain ⟨dns, hdspec, hchilds2⟩ := list_dir_child_spec r dir fuel childs childs2 fy hd
        exact ⟨fns, fx, dns, fy, hfspec, hdspec, by simp [hchilds2, hchilds]⟩
  · intro h childs
    unfold IVFCReader.list_file_child
    rw [h]
  · intro h childs
    unfold IVFCReader.list_dir_child
    rw [h]
  · intro h1 h2
    unfold IVFCReader.list_child
    unfold IVFCReader.list_file_child
    rw [h1]
    dsimp only
    unfold IVFCReader.list_dir_child
    rw [h2]

/-- A stream holding `fmBytesA` (a file record named U+0061) at offset 0
followed by `dmBytesB` (a directory record named U+0062) at offset 34. -/
def imgFileDir : List Nat := fmBytesA ++ dmBytesB

/-- A directory with its file chain at relative offset 0 and its
subdirectory chain at relative offset 0. -/
def dirBoth : DirectoryMetadata := ⟨some 0, none, some 0, some 0, none⟩

/-- A reader over `imgFileDir`: directory-metadata base 34, file-metadata
base 0. -/
def readerBoth : IVFCReader := ⟨⟨imgFileDir, 0⟩, 34, 0, dirBoth, 0⟩

/-- A directory with neither subdirectories nor files. -/
def dirEmptyChains : DirectoryMetadata := ⟨some 0, none, none, none, none⟩

/-- Witness for C6: a directory with no chains lists empty without error,
and a directory with one file U+0061 and one subdirectory U+0062 lists
`[[97], [98]]`, file first. -/
theorem list_child_names_witness :
    IVFCReader.list_child readerBoth dirEmptyChains 5 = .ok [] ∧
    IVFCReader.list_file_child readerBoth dirEmptyChains [] 5 = .ok [] readerBoth.file ∧
    IVFCReader.list_dir_child readerBoth dirEmptyChains [] 5 = .ok [] readerBoth.file ∧
    (∃ fns f1 dns f2, specFileChainNames readerBoth dirBoth 5 = .ok fns f1 ∧
      specDirChainNames readerBoth dirBoth 5 = .ok dns f2 ∧
      ([[97], [98]] : List (List Nat)) = fns ++ dns) :=
  ⟨(list_child_names readerBoth dirEmptyChains 5).2.2.2 rfl rfl,
   (list_child_names readerBoth dirEmptyChains 5).2.1 rfl [],
   (list_child_names readerBoth dirEmptyChains 5).2.2.1 rfl [],
   (list_child_names readerBoth dirBoth 5).1 [[97], [98]] rfl⟩

/-- Every successfully parsed non-root directory record carries a name. -/
theorem dirMeta_new_nonroot_name :
    ∀ (f : FileState) (d : DirectoryMetadata) (f' : FileState),
      DirectoryMetadata.new f false = .ok (d, f') → d.name.isSome = true := by
  intro f d f' h
  unfold DirectoryMetadata.new at h
  repeat' split at h
  all_goals simp_all
  obtain ⟨h1, h2⟩ := h
  subst h1
  rfl

/-- The directory-chain walk of `get_child` never reaches the `unwrap`
panic when started from a named record: every record it parses along
the chain is non-root and therefore named. -/
theorem getChildDirLoop_no_crash (r : IVFCReader) (path : List Nat) :
    ∀ (fuel : Nat) (f : FileState) (md : DirectoryMetadata),
      md.name.isSome = true → getChildDirLoop r fuel f md path ≠ .crash := by
  intro fuel
  induction fuel with
  | zero =>
    intro f md hs
    unfold getChildDirLoop
    cases hname : md.name with
    | none => rw [hname] at hs; simp at hs
    | some nm =>
      dsimp only
      by_cases hp : nm = path
      · simp [hp]
      · rw [if_neg hp]
        cases hsib : md.offset_next_sibling with
        | none => simp
        | some v => simp
  | succ m ih =>
    intro f md hs
    unfold getChildDirLoop
    cases hname : md.name with
    | none => rw [hname] at hs; simp at hs
    | some nm =>
      dsimp only
      by_cases hp : nm = path
      · simp [hp]
      · rw [if_neg hp]
        cases hsib : md.offset_next_sibling with
        | none => simp
        | some v =>
          dsimp only
          cases hnew : DirectoryMetadata.new
              (fileSeekTo f ((v + r.dir_metadata_part_offset) % U32)) false with
          | error e => simp
          | ok pr =>
            obtain ⟨md2, f2⟩ := pr
            dsimp only
            exact ih f2 md2 (dirMeta_new_nonroot_name _ _ _ hnew)

/-- The directory-chain walk of `list_dir_child` never reaches the
`unwrap` panic when started from a named record. -/
theorem listDirLoop_no_crash (r : IVFCReader) :
    ∀ (fuel : Nat) (f : FileState) (md : DirectoryMetadata) (childs : List (List Nat)),
      md.name.isSome = true → listDirLoop r fuel f md childs ≠ .crash := by
  intro fuel
  induction fuel with
  | zero =>
    intro f md childs hs
    unfold listDirLoop
    cases hname : md.name with
    | none => rw [hname] at hs; simp at hs
    | some nm =>
      dsimp only
      cases hsib : md.offset_next_sibling with
      | none => simp
      | some v => simp
  | succ m ih =>
    intro f md childs hs
    unfold listDirLoop
    cases hname : md.name with
    | none => rw [hname] at hs; simp at hs
    | some nm =>
      dsimp only
      cases hsib : md.offset_next_sibling with
      | none => simp
      | some v =>
        dsimp only
        cases hnew : DirectoryMetadata.new
            (fileSeekTo f (v + r.dir_metadata_part_offset)) false with
        | error e => simp
        | ok pr =>
          obtain ⟨md2, f2⟩ := pr
          dsimp only
          exact ih f2 md2 (childs ++ [nm]) (dirMeta_new_nonroot_name _ _ _ hnew)

/-- C10: `DirectoryMetadata::new` with `is_root = false` always produces
`name = Some(..)`, and consequently the name `unwrap`s performed while
walking directory sibling chains in `get_child` and `list_dir_child`
can never panic, for any reader, directory, path and fuel. -/
theorem dir_name_unwrap_safe :
    (∀ (f : FileState) (d : DirectoryMetadata) (f' : FileState),
      DirectoryMetadata.new f false = .ok (d, f') → d.name.isSome = true) ∧
    (∀ (r : IVFCReader) (dir : DirectoryMetadata) (path : List Nat) (fuel : Nat),
      IVFCReader.get_child r dir path fuel ≠ .crash) ∧
    (∀ (r : IVFCReader) (dir : DirectoryMetadata) (childs : List (List Nat)) (fuel : Nat),
      IVFCReader.list_dir_child r dir childs fuel ≠ .crash) := by
  refine ⟨dirMeta_new_nonroot_name, ?_, ?_⟩
  · intro r dir path fuel
    unfold IVFCReader.get_child
    cases hfs : dir.offset_first_subdir with
    | none => simp
    | some v =>
      dsimp only
      cases hnew : DirectoryMetadata.new
          (fileSeekTo r.file ((v + r.dir_metadata_part_offset) % U32)) false with
      | error e => simp
      | ok pr =>
        obtain ⟨md, f2⟩ := pr
        dsimp only
        cases hloop : getChildDirLoop r fuel f2 md path with
        | found d => simp
        | err e => simp
        | nofuel => simp
        | crash =>
          exact absurd hloop (getChildDirLoop_no_crash r path fuel f2 md
            (dirMeta_new_nonroot_name _ _ _ hnew))
        | exhausted f3 =>
          dsimp only
          cases hff : dir.offset_first_file with
          | none => simp
          | some w =>
            dsimp only
            cases hfm : FileMetadata.new
                (fileSeekTo f3 ((w + r.file_metadata_part_offset) % U32)) with
            | error e => simp
            | ok pr2 =>
              obtain ⟨fm, f5⟩ := pr2
              dsimp only
              cases hfl : getChildFileLoop r fuel f5 fm path <;> simp
  · intro r dir childs fuel
    unfold IVFCReader.list_dir_child
    cases hfs : dir.offset_first_subdir with
    | none => simp
    | some v =>
      dsimp only
      cases hnew : DirectoryMetadata.new
          (fileSeekTo r.file (v + r.dir_metadata_part_offset)) false with
      | error e => simp
      | ok pr =>
        obtain ⟨md, f2⟩ := pr
        dsimp only
        exact listDirLoop_no_crash r fuel f2 md childs (dirMeta_new_nonroot_name _ _ _ hnew)

/-- Witness for C10: parsing the concrete non-root record `dmBytesB`
yields a present name. -/
theorem dir_name_unwrap_safe_witness :
    (⟨some 0, none, none, none, some [98]⟩ : DirectoryMetadata).name.isSome = true :=
  dir_name_unwrap_safe.1 ⟨dmBytesB, 0⟩ ⟨some 0, none, none, none, some [98]⟩
    ⟨dmBytesB, 26⟩ rfl

/-! ### VFS adapter (src/ivfc_vfs.rs) -/

/-- `vfs::OpenOptions`: the flags inspected by `open_with_options`. -/
structure OpenOptions where
  read : Bool
  write : Bool
  create : Bool
  append : Bool
  truncate : Bool
  deriving DecidableEq, Repr

/-- `GetMetadataError` (src/ivfc_vfs.rs); the OS-string conversion failure
cannot arise in this model because path components are already strings. -/
inductive GetMetadataError where
  | IVFCError (e : IVFCError)
  | TryGetChildFile (fm : FileMetadata)
  deriving DecidableEq, Repr

/-- `IVFCVPATH` (src/ivfc_vfs.rs): a shared reader handle plus a path
buffer, modelled as the list of path components (each a code-point
list). -/
structure IVFCVPATH where
  reader : IVFCReader
  path : List (List Nat)
  deriving DecidableEq, Repr

/-- Result of `get_internal_meta`. -/
inductive MetaRes where
  | ok (c : DirectoryOrFile)
  | err (e : GetMetadataError)
  | crash
  | nofuel
  deriving DecidableEq, Repr

/-- The `for path_part in self.path.iter()` loop of `get_internal_meta`
(src/ivfc_vfs.rs lines 157-177). -/
def get_internal_meta_go (r : IVFCReader) (fuel : Nat) :
    List (List Nat) → DirectoryOrFile → MetaRes
  | [], actual_meta => .ok actual_meta
  | path_part :: rest, actual_meta =>
    match actual_meta with
    | .Dir actual_dir =>
      match IVFCReader.get_child r actual_dir path_part fuel with
      | .ok new_dir => get_internal_meta_go r fuel rest new_dir
      | .err e => .err (.IVFCError e)
      | .crash => .crash
      | .nofuel => .nofuel
    | .File actual_file => .err (.TryGetChildFile actual_file)

/-- `IVFCVPATH::get_internal_meta` (src/ivfc_vfs.rs lines 156-178): walk
the path components down from the root directory. -/
def IVFCVPATH.get_internal_meta (p : IVFCVPATH) (fuel : Nat) : MetaRes :=
  get_internal_meta_go p.reader fuel p.path (.Dir p.reader.first_dir_metadata)

/-- `return_ro_error` (src/ivfc_vfs.rs lines 181-186). -/
def return_ro_error : Except IoErrorKind Unit :=
  .error .PermissionDenied

/-- Result of `open_with_options`. -/
inductive OwoRes where
  | ok (h : PartitionMutex)
  | err (k : IoErrorKind)
  | crash
  | nofuel
  deriving DecidableEq, Repr

/-- `IVFCVPATH::open_with_options` (src/ivfc_vfs.rs lines 189-215): any
write-enabling flag fails `PermissionDenied` before anything else;
otherwise the path is resolved and a shared partition window over the
file's data region is returned (resolution failures surface as `Other`,
a directory target as `InvalidData`). -/
def IVFCVPATH.open_with_options (p : IVFCVPATH) (opt : OpenOptions) (fuel : Nat) : OwoRes :=
  if opt.write || opt.create || opt.append || opt.truncate then .err .PermissionDenied
  else
    match p.get_internal_meta fuel with
    | .ok (.File file_meta) =>
      match PartitionMutex.new p.reader.file
          (IVFCReader.get_file_real_offset p.reader file_meta)
          file_meta.lenght_file_data with
      | .ok value => .ok value
      | .error _ => .err .Other
    | .ok (.Dir _) => .err .InvalidData
    | .err _ => .err .Other
    | .crash => .crash
    | .nofuel => .nofuel

/-- `IVFCVPATH::mkdir` (src/ivfc_vfs.rs lines 238-240). -/
def IVFCVPATH.mkdir (_ : IVFCVPATH) : Except IoErrorKind Unit :=
  return_ro_error

/-- `IVFCVPATH::rm` (src/ivfc_vfs.rs lines 242-244). -/
def IVFCVPATH.rm (_ : IVFCVPATH) : Except IoErrorKind Unit :=
  return_ro_error

/-- `IVFCVPATH::rmrf` (src/ivfc_vfs.rs lines 246-248). -/
def IVFCVPATH.rmrf (_ : IVFCVPATH) : Except IoErrorKind Unit :=
  return_ro_error

/-- C9: every write path — `open_with_options` with any of the write,
create, append or truncate flags set, `mkdir`, `rm`, `rmrf`, and `write`
on the shared partition handle — fails with `PermissionDenied` for every
path, options value and state, while `flush` on the shared handle always
succeeds. -/
theorem write_paths_denied :
    (∀ (p : IVFCVPATH) (opt : OpenOptions) (fuel : Nat),
      (opt.write = true ∨ opt.create = true ∨ opt.append = true ∨ opt.truncate = true) →
      IVFCVPATH.open_with_options p opt fuel = .err .PermissionDenied) ∧
    (∀ p : IVFCVPATH, IVFCVPATH.mkdir p = .error .PermissionDenied) ∧
    (∀ p : IVFCVPATH, IVFCVPATH.rm p = .error .PermissionDenied) ∧
    (∀ p : IVFCVPATH, IVFCVPATH.rmrf p = .error .PermissionDenied) ∧
    (∀ (h : PartitionMutex) (buf : List Nat),
      PartitionMutex.write h buf = .error .PermissionDenied) ∧
    (∀ h : PartitionMutex, PartitionMutex.flush h = .ok ()) := by
  refine ⟨?_, fun _ => rfl, fun _ => rfl, fun _ => rfl, fun _ _ => rfl, fun _ => rfl⟩
  intro p opt fuel hflag
  unfold IVFCVPATH.open_with_options
  have : (opt.write || opt.create || opt.append || opt.truncate) = true := by
    rcases hflag with h | h | h | h <;> simp [h]
  rw [if_pos this]

/-- Witness for C9: opening the root path with the write flag set on a
concrete reader is denied. -/
theorem write_paths_denied_witness :
    IVFCVPATH.open_with_options ⟨readerBoth, []⟩ ⟨true, true, false, false, false⟩ 5
      = .err .PermissionDenied :=
  write_paths_denied.1 ⟨readerBoth, []⟩ ⟨true, true, false, false, false⟩ 5 (Or.inl rfl)
